import Mathlib

/-!
Verification development for the tesseract command module
(src/tesseract/command.rs of the rusty-tesseract crate).

The Rust code is shallowly embedded: filesystem and environment reads
become fields of an explicit `Env` record, process spawning becomes a
`World` function from commands to spawn results, and every Rust
function of the module becomes a pure Lean function over these records.
A Rust panic (an `unwrap` on a missing value) is made explicit as the
`panic` constructor of `ExecResult`, so that panicking and returning a
typed error are distinguishable outcomes.
-/

namespace RustyTesseract

/-- A filesystem path, modelled as the list of segments handed to
`PathBuf::join` (the Rust code never normalizes paths, and the
filesystem predicates of `Env` are abstract, so the representation of
one segment is irrelevant). -/
abbrev Path := List String

/-- `PathBuf::join`: append one segment, no normalization. -/
def joinPath (p : Path) (s : String) : Path := p ++ [s]

/-- `Path::parent`: drop the final segment; `none` on an empty path. -/
def parentDir (p : Path) : Option Path :=
  match p with
  | [] => none
  | _ => some p.dropLast

/-- The compile-time target of the `cfg(target_os)` blocks. -/
inductive Platform where
  | macos
  | linux
  | windows
  | other
deriving DecidableEq

/-- `EXECUTABLE_NAME`: `tesseract.exe` on Windows, `tesseract` elsewhere. -/
def executableName (pf : Platform) : String :=
  match pf with
  | .windows => "tesseract.exe"
  | _ => "tesseract"

/-- The read-only environment consulted by `find_tesseract_path`:
the result of `which(EXECUTABLE_NAME)`, `std::env::current_dir()`,
`std::env::current_exe()`, `dirs::home_dir()`, and the filesystem
predicates `Path::exists` and `Path::is_file`. -/
structure Env where
  whichResult : Option Path
  currentDir : Option Path
  currentExe : Option Path
  homeDir : Option Path
  pathExists : Path → Bool
  isFile : Path → Bool

/-- Step 1 of the search: the PATH lookup via `which`; any hit is
returned immediately without a further file check. -/
def step_path (env : Env) : Option Path := env.whichResult

/-- Step 2: the current working directory; the candidate is accepted
only if `is_file() && exists()`. -/
def step_cwd (pf : Platform) (env : Env) : Option Path :=
  match env.currentDir with
  | some cwd =>
    let cand := joinPath cwd (executableName pf)
    if env.isFile cand && env.pathExists cand then some cand else none
  | none => none

/-- Step 3: the directory holding the binary of the running program;
the candidate is accepted on `exists()` alone. -/
def step_exe (pf : Platform) (env : Env) : Option Path :=
  match env.currentExe with
  | some exe =>
    match parentDir exe with
    | some fol =>
      let cand := joinPath fol (executableName pf)
      if env.pathExists cand then some cand else none
    | none => none
  | none => none

/-- Step 4: the platform-specific auxiliary directory, checked inside
the same `current_exe` block as step 3: `../Resources` on macOS, the
`lib` subdirectory on Linux, nothing elsewhere; accepted on
`exists()` alone. -/
def step_platform (pf : Platform) (env : Env) : Option Path :=
  match env.currentExe with
  | some exe =>
    match parentDir exe with
    | some fol =>
      match pf with
      | .macos =>
        let cand := joinPath (joinPath fol "../Resources") (executableName pf)
        if env.pathExists cand then some cand else none
      | .linux =>
        let cand := joinPath (joinPath fol "lib") (executableName pf)
        if env.pathExists cand then some cand else none
      | _ => none
    | none => none
  | none => none

/-- Step 5: `<home>/.local/bin/<name>`; accepted on `exists()` alone. -/
def step_home (pf : Platform) (env : Env) : Option Path :=
  match env.homeDir with
  | some home =>
    let cand := joinPath (joinPath home ".local/bin") (executableName pf)
    if env.pathExists cand then some cand else none
  | none => none

/-- `find_tesseract_path`: the five-step early-return search. Each
failed introspection (`current_dir`, `current_exe`, `home_dir`
unavailable) makes its step yield `none` and the search continue. -/
def find_tesseract_path (pf : Platform) (env : Env) : Option Path :=
  match step_path env with
  | some p => some p
  | none =>
  match step_cwd pf env with
  | some p => some p
  | none =>
  match step_exe pf env with
  | some p => some p
  | none =>
  match step_platform pf env with
  | some p => some p
  | none => step_home pf env

/-- The error type of the crate, as used by this module. The module
itself constructs only `TesseractNotFoundError` and
`CommandExitStatusError(status, stderr)`; `ImageError` stands for the
failures an `Image::get_image_path` call can propagate (modelled from
the spec, since the image module is outside this file). -/
inductive TessError where
  | TesseractNotFoundError
  | CommandExitStatusError (status : String) (stderrText : String)
  | ImageError (msg : String)
deriving DecidableEq, Repr

/-- `TessResult<T>` of the crate. -/
abbrev TessResult (α : Type) := Except TessError α

/-- The outcome of running embedded Rust code: a normal value, a typed
error returned to the caller, or a panic (an `unwrap` that fired).
Distinguishing `err` from `panic` is the point of the embedding. -/
inductive ExecResult (α : Type) where
  | ok (a : α)
  | err (e : TessError)
  | panic (msg : String)
deriving DecidableEq, Repr

/-- Is the outcome a typed error returned to the caller? -/
def isErrResult {α : Type} (r : ExecResult α) : Bool :=
  match r with
  | .err _ => true
  | _ => false

/-- Is the outcome a panic? -/
def isPanicResult {α : Type} (r : ExecResult α) : Bool :=
  match r with
  | .panic _ => true
  | _ => false

/-- A `std::process::Command`: the program plus its argument vector,
passed as a vector and never through a shell. -/
structure Command where
  program : Path
  args : List String
deriving DecidableEq, Repr

/-- The panic message of `Option::unwrap` on `None`. -/
def unwrapNoneMsg : String := "called Option unwrap on a None value"

/-- `get_tesseract_command`: `find_tesseract_path().unwrap()` followed
by `Command::new`; the `unwrap` panics when the search returned
`None`. -/
def get_tesseract_command (pf : Platform) (env : Env) : ExecResult Command :=
  match find_tesseract_path pf env with
  | some tesseract => .ok { program := tesseract, args := [] }
  | none => .panic unwrapNoneMsg

/-- What `wait_with_output` captured: `ExitStatus::code()`, the
`Display` rendering of the status, and the raw bytes of both pipes. -/
structure ProcessOutcome where
  statusCode : Option Int
  statusRepr : String
  stdoutBytes : List Nat
  stderrBytes : List Nat
deriving DecidableEq, Repr

/-- How the operating system answered one spawn: the `spawn` call
failed, the `wait_with_output` call failed, or the child ran to
completion with the given outcome. -/
inductive SpawnResult where
  | spawnErr
  | waitErr
  | completed (o : ProcessOutcome)
deriving DecidableEq, Repr

/-- The behaviour of the operating system for this call: each command
is mapped to the result of spawning it. -/
structure World where
  os : Command → SpawnResult

/-- Is this byte a UTF-8 continuation byte (0x80..0xBF)? -/
def isCont (b : Nat) : Bool := 128 ≤ b && b < 192

/-- Strict UTF-8 decoding of a byte list, as `String::from_utf8`:
rejects stray continuation bytes, overlong encodings, surrogates and
values above 0x10FFFF. Returns the decoded characters, or `none` when
the bytes are not valid UTF-8. -/
def utf8Decode : List Nat → Option (List Char)
  | [] => some []
  | b :: rest =>
    if b < 128 then
      match utf8Decode rest with
      | some cs => some (Char.ofNat b :: cs)
      | none => none
    else if b < 194 then none
    else if b < 224 then
      match rest with
      | c1 :: rest2 =>
        if isCont c1 then
          match utf8Decode rest2 with
          | some cs => some (Char.ofNat ((b - 192) * 64 + (c1 - 128)) :: cs)
          | none => none
        else none
      | [] => none
    else if b < 240 then
      match rest with
      | c1 :: c2 :: rest3 =>
        if isCont c1 && isCont c2 then
          let v := (b - 224) * 4096 + (c1 - 128) * 64 + (c2 - 128)
          if v < 2048 then none
          else if 55296 ≤ v && v < 57344 then none
          else
            match utf8Decode rest3 with
            | some cs => some (Char.ofNat v :: cs)
            | none => none
        else none
      | _ => none
    else if b < 245 then
      match rest with
      | c1 :: c2 :: c3 :: rest4 =>
        if isCont c1 && isCont c2 && isCont c3 then
          let v := (b - 240) * 262144 + (c1 - 128) * 4096 + (c2 - 128) * 64 + (c3 - 128)
          if v < 65536 then none
          else if 1114111 < v then none
          else
            match utf8Decode rest4 with
            | some cs => some (Char.ofNat v :: cs)
            | none => none
        else none
      | _ => none
    else none

/-- The ASCII bytes of a string (every character below 128). -/
def asciiBytes (s : String) : List Nat := s.data.map Char.toNat

/-- `run_tesseract_command`: spawn with both pipes captured (spawn or
wait failure becomes `TesseractNotFoundError`), decode both streams
with `String::from_utf8(..).unwrap()` (a decoding failure panics),
then classify by `status.code()`: `Some(0)` is success with the
decoded stdout, anything else is `CommandExitStatusError` carrying the
stringified status and the decoded stderr. The debug-build
`show_command` print and the Windows `CREATE_NO_WINDOW` flag do not
affect the returned value and are not modelled. -/
def run_tesseract_command (w : World) (command : Command) : ExecResult String :=
  match w.os command with
  | .spawnErr => .err .TesseractNotFoundError
  | .waitErr => .err .TesseractNotFoundError
  | .completed o =>
    match utf8Decode o.stdoutBytes with
    | none => .panic "invalid utf-8 in stdout"
    | some outChars =>
      match utf8Decode o.stderrBytes with
      | none => .panic "invalid utf-8 in stderr"
      | some errChars =>
        match o.statusCode with
        | some 0 => .ok (String.mk outChars)
        | _ => .err (.CommandExitStatusError o.statusRepr (String.mk errChars))

/-- One step of `str::lines` over the character list: `acc` holds the
characters of the current line in reverse; at a newline the line is
emitted with one trailing carriage return stripped; a final line
without a newline is emitted as-is. -/
def linesCore : List Char → List Char → List String
  | [], [] => []
  | [], acc => [String.mk acc.reverse]
  | c :: rest, acc =>
    if c = '\n' then
      let lineChars :=
        match acc with
        | '\r' :: acc2 => acc2.reverse
        | _ => acc.reverse
      String.mk lineChars :: linesCore rest []
    else
      linesCore rest (c :: acc)

/-- `str::lines` of Rust: lines split at `\n` or `\r\n`, the final
line ending optional, an empty string yielding no lines. -/
def rustLines (s : String) : List String := linesCore s.data []

/-- `get_tesseract_version`: locate (panics when absent), add
`--version`, run, return the raw text. -/
def get_tesseract_version (pf : Platform) (env : Env) (w : World) : ExecResult String :=
  match get_tesseract_command pf env with
  | .ok command => run_tesseract_command w { command with args := command.args ++ ["--version"] }
  | .err e => .err e
  | .panic m => .panic m

/-- `get_tesseract_langs`: locate (panics when absent), add
`--list-langs`, run, then `output.lines().skip(1)` collected in
order. -/
def get_tesseract_langs (pf : Platform) (env : Env) (w : World) : ExecResult (List String) :=
  match get_tesseract_command pf env with
  | .ok command =>
    match run_tesseract_command w { command with args := command.args ++ ["--list-langs"] } with
    | .ok output => .ok ((rustLines output).drop 1)
    | .err e => .err e
    | .panic m => .panic m
  | .err e => .err e
  | .panic m => .panic m

/-- The decimal digit character of `n < 10`. -/
def decDigitChar (n : Nat) : Char := Char.ofNat (48 + n)

/-- Decimal digits of a natural number, fuelled for structural
recursion; called with fuel above the digit count. -/
def natDigitsAux : Nat → Nat → List Char
  | 0, _ => []
  | fuel + 1, n =>
    if n < 10 then [decDigitChar n]
    else natDigitsAux fuel (n / 10) ++ [decDigitChar (n % 10)]

/-- The decimal rendering of a natural number. -/
def natDecimal (n : Nat) : String := String.mk (natDigitsAux (n + 1) n)

/-- `i32::to_string`: decimal rendering of an integer. -/
def intDecimal : Int → String
  | .ofNat n => natDecimal n
  | .negSucc n => "-" ++ natDecimal (n + 1)

/-- Modelled from the spec: the `Args` recognition-options bundle
(defined outside this module) — required language code, optional DPI,
optional page-segmentation mode, optional OCR-engine mode, and an
ordered collection of free-form key/value configuration parameters. -/
structure Args where
  lang : String
  dpi : Option Int
  psm : Option Int
  oem : Option Int
  configVariables : List (String × String)
deriving DecidableEq, Repr

/-- Modelled from the spec: `Args::get_config_variable_args` renders
each configuration parameter as its literal `key=value` string, in the
order supplied. -/
def Args.get_config_variable_args (a : Args) : List String :=
  a.configVariables.map (fun kv => kv.1 ++ "=" ++ kv.2)

/-- Modelled from the spec: an `Image` yields a filesystem path on
demand and may fail with a typed error when the image cannot be
materialized to a path. -/
structure Image where
  imagePathResult : TessResult String

/-- `Image::get_image_path`. -/
def Image.get_image_path (img : Image) : TessResult String := img.imagePathResult

/-- `create_tesseract_command`: `get_tesseract_command()` first (which
panics when the locator found nothing), then the image path (its
failure propagated with `?`), `stdout`, `-l <lang>`, the optional
`--dpi`, `--psm`, `--oem` pairs, and one `-c <key=value>` pair per
configuration parameter, in that order. -/
def create_tesseract_command (pf : Platform) (env : Env) (image : Image) (args : Args) :
    ExecResult Command :=
  match get_tesseract_command pf env with
  | .ok command =>
    match image.get_image_path with
    | .ok imagePath =>
      .ok { command with
            args := command.args ++ [imagePath, "stdout", "-l", args.lang]
              ++ (match args.dpi with
                  | some dpi => ["--dpi", intDecimal dpi]
                  | none => [])
              ++ (match args.psm with
                  | some psm => ["--psm", intDecimal psm]
                  | none => [])
              ++ (match args.oem with
                  | some oem => ["--oem", intDecimal oem]
                  | none => [])
              ++ (args.get_config_variable_args.map (fun p => ["-c", p])).flatten }
    | .error e => .err e
  | .err e => .err e
  | .panic m => .panic m

/-- `image_to_string`: build the recognition command, run it, return
the raw recognized text. -/
def image_to_string (pf : Platform) (env : Env) (w : World) (image : Image) (args : Args) :
    ExecResult String :=
  match create_tesseract_command pf env image args with
  | .ok command => run_tesseract_command w command
  | .err e => .err e
  | .panic m => .panic m

/-- A state where the executable exists at none of the five locations
and no introspection succeeds. -/
def envNone : Env :=
  { whichResult := none
    currentDir := none
    currentExe := none
    homeDir := none
    pathExists := fun _ => false
    isFile := fun _ => false }

/-- A state where the only hit is the regular file
`<cwd>/tesseract` with the working directory known. -/
def envCwdFile : Env :=
  { whichResult := none
    currentDir := some ["home"]
    currentExe := none
    homeDir := none
    pathExists := fun p => p == ["home", "tesseract"]
    isFile := fun p => p == ["home", "tesseract"] }

/-- A state where `usr/bin/tesseract` exists but is a directory
(`is_file` is false everywhere), the running binary being
`usr/bin/app`. -/
def envDirAtExe : Env :=
  { whichResult := none
    currentDir := none
    currentExe := some ["usr", "bin", "app"]
    homeDir := none
    pathExists := fun p => p == ["usr", "bin", "tesseract"]
    isFile := fun _ => false }

/-- A state where the PATH lookup already finds `opt/tesseract`. -/
def envWhich : Env :=
  { whichResult := some ["opt", "tesseract"]
    currentDir := none
    currentExe := none
    homeDir := none
    pathExists := fun _ => false
    isFile := fun _ => false }

/-- A sample command value. -/
def cmd0 : Command := { program := ["usr", "bin", "tesseract"], args := ["--version"] }

/-- An operating system whose every spawn fails. -/
def wNone : World := { os := fun _ => .spawnErr }

/-- An operating system whose child exits 0 but writes the invalid
UTF-8 byte 0xFF to stdout. -/
def wBadUtf8 : World :=
  { os := fun _ => .completed
      { statusCode := some 0
        statusRepr := "exit status: 0"
        stdoutBytes := [255]
        stderrBytes := [] } }

/-- An operating system whose child exits 1 writing `bad input` to
stderr. -/
def wExitOne : World :=
  { os := fun _ => .completed
      { statusCode := some 1
        statusRepr := "exit status: 1"
        stdoutBytes := []
        stderrBytes := asciiBytes "bad input" } }

/-- An operating system whose child exits 0 with the language list
`List of available languages:\neng\nfra\n` on stdout. -/
def wLangs : World :=
  { os := fun _ => .completed
      { statusCode := some 0
        statusRepr := "exit status: 0"
        stdoutBytes := asciiBytes "List of available languages:\neng\nfra\n"
        stderrBytes := [] } }

/-- An operating system whose child exits 0 with only the header line
(no trailing newline) on stdout. -/
def wHeaderOnly : World :=
  { os := fun _ => .completed
      { statusCode := some 0
        statusRepr := "exit status: 0"
        stdoutBytes := asciiBytes "List of available languages:"
        stderrBytes := [] } }

/-- An image that materializes to the path `photo.png`. -/
def imgOk : Image := { imagePathResult := .ok "photo.png" }

/-- The default options of the spec examples: language `eng`, nothing
else set. -/
def argsEng : Args :=
  { lang := "eng", dpi := none, psm := none, oem := none, configVariables := [] }

/-- Claim C1: in a state where `find_tesseract_path` returns `None`,
every command-construction operation is claimed to return
`TesseractNotFoundError` and never panic. The code instead calls
`unwrap` on the `None`: at the concrete state `envNone` the search
returns `none` and `get_tesseract_command`, `get_tesseract_version`,
`get_tesseract_langs`, `create_tesseract_command` and
`image_to_string` all panic, none of them returning the typed
error. -/
theorem claim_C1_unwrap_panics :
    find_tesseract_path .linux envNone = none ∧
    get_tesseract_command .linux envNone = .panic unwrapNoneMsg ∧
    get_tesseract_version .linux envNone wNone = .panic unwrapNoneMsg ∧
    get_tesseract_langs .linux envNone wNone = .panic unwrapNoneMsg ∧
    create_tesseract_command .linux envNone imgOk argsEng = .panic unwrapNoneMsg ∧
    image_to_string .linux envNone wNone imgOk argsEng = .panic unwrapNoneMsg ∧
    get_tesseract_version .linux envNone wNone ≠ .err .TesseractNotFoundError ∧
    image_to_string .linux envNone wNone imgOk argsEng ≠ .err .TesseractNotFoundError := by
  decide

/-- Claim C2, counterexample: in the state `envDirAtExe` the step-3
candidate `usr/bin/tesseract` exists but is not a regular file (a
directory), yet `find_tesseract_path` returns it — the claim that
every accepted candidate at steps 2 through 5 was checked as a
regular file is false on the code. -/
theorem claim_C2_counterexample :
    find_tesseract_path .linux envDirAtExe = some ["usr", "bin", "tesseract"] ∧
    envDirAtExe.pathExists ["usr", "bin", "tesseract"] = true ∧
    envDirAtExe.isFile ["usr", "bin", "tesseract"] = false := by
  decide

/-- Claim C2, amended: only the current-working-directory candidate
(step 2) is accepted under an `is_file` check (together with
`exists`); the candidates of steps 3, 4 and 5 are accepted on bare
existence, so a directory or special file at those locations is
returned. -/
theorem claim_C2_amended :
    (∀ (pf : Platform) (env : Env) (p : Path),
      step_cwd pf env = some p → env.isFile p = true ∧ env.pathExists p = true) ∧
    (∀ (pf : Platform) (env : Env) (p : Path),
      step_exe pf env = some p → env.pathExists p = true) ∧
    (∀ (pf : Platform) (env : Env) (p : Path),
      step_platform pf env = some p → env.pathExists p = true) ∧
    (∀ (pf : Platform) (env : Env) (p : Path),
      step_home pf env = some p → env.pathExists p = true) := by
  refine ⟨?_, ?_, ?_, ?_⟩
  · intro pf env p h
    simp only [step_cwd] at h
    split at h
    · split at h
      · rename_i hcond
        injection h with h
        subst h
        exact Bool.and_eq_true _ _ |>.mp hcond
      · exact Option.noConfusion h
    · exact Option.noConfusion h
  · intro pf env p h
    simp only [step_exe] at h
    split at h <;> try exact Option.noConfusion h
    split at h <;> try exact Option.noConfusion h
    split at h
    · injection h with h
      subst h
      assumption
    · exact Option.noConfusion h
  · intro pf env p h
    simp only [step_platform] at h
    split at h <;> try exact Option.noConfusion h
    split at h <;> try exact Option.noConfusion h
    split at h <;> try exact Option.noConfusion h
    all_goals split at h
    all_goals first
      | exact Option.noConfusion h
      | (injection h with h; subst h; assumption)
  · intro pf env p h
    simp only [step_home] at h
    split at h <;> try exact Option.noConfusion h
    split at h
    · injection h with h
      subst h
      assumption
    · exact Option.noConfusion h

/-- Claim C2, witness for the amended statement: the step-2 candidate
accepted in `envCwdFile` is indeed a regular file that exists. -/
theorem claim_C2_amended_witness :
    envCwdFile.isFile ["home", "tesseract"] = true ∧
    envCwdFile.pathExists ["home", "tesseract"] = true :=
  claim_C2_amended.1 .linux envCwdFile ["home", "tesseract"] (by decide)

/-- Helper: step 2 finds nothing when the working-directory candidate
is not a regular file (or the working directory is unknown). -/
theorem step_cwd_none (pf : Platform) (env : Env)
    (h : ∀ d, env.currentDir = some d → env.isFile (joinPath d (executableName pf)) = false) :
    step_cwd pf env = none := by
  simp only [step_cwd]
  split
  · rename_i d hd
    rw [h d hd]
    simp
  · rfl

/-- Helper: step 3 finds nothing when the sibling candidate of the
running binary does not exist (or the binary path is unknown). -/
theorem step_exe_none (pf : Platform) (env : Env)
    (h : ∀ e fol, env.currentExe = some e → parentDir e = some fol →
      env.pathExists (joinPath fol (executableName pf)) = false) :
    step_exe pf env = none := by
  simp only [step_exe]
  split
  · rename_i e he
    split
    · rename_i fol hfol
      rw [h e fol he hfol]
      simp
    · rfl
  · rfl

/-- Helper: step 4 finds nothing when neither platform-specific
auxiliary candidate exists (or the binary path is unknown). -/
theorem step_platform_none (pf : Platform) (env : Env)
    (h : ∀ e fol, env.currentExe = some e → parentDir e = some fol →
      env.pathExists (joinPath (joinPath fol "../Resources") (executableName pf)) = false ∧
      env.pathExists (joinPath (joinPath fol "lib") (executableName pf)) = false) :
    step_platform pf env = none := by
  simp only [step_platform]
  split
  · rename_i e he
    split
    · rename_i fol hfol
      cases pf
      · rw [(h e fol he hfol).1]
        simp
      · rw [(h e fol he hfol).2]
        simp
      · rfl
      · rfl
    · rfl
  · rfl

/-- Helper: step 5 finds nothing when the local-bin candidate does
not exist (or the home directory is unknown). -/
theorem step_home_none (pf : Platform) (env : Env)
    (h : ∀ hm, env.homeDir = some hm →
      env.pathExists (joinPath (joinPath hm ".local/bin") (executableName pf)) = false) :
    step_home pf env = none := by
  simp only [step_home]
  split
  · rename_i hm hh
    rw [h hm hh]
    simp
  · rfl

/-- Claim C4: monotonic priority of the five discovery steps. A PATH
hit wins immediately; otherwise, when the executable exists at step
k's location and at no earlier step's location, `find_tesseract_path`
returns exactly the step-k candidate, for k = 2 (working directory),
k = 3 (binary folder), k = 4 on macOS (`../Resources`) and on Linux
(`lib`), and k = 5 (`<home>/.local/bin`). -/
theorem claim_C4_priority :
    (∀ (pf : Platform) (env : Env) (p : Path),
      env.whichResult = some p → find_tesseract_path pf env = some p) ∧
    (∀ (pf : Platform) (env : Env) (d : Path),
      env.whichResult = none → env.currentDir = some d →
      env.isFile (joinPath d (executableName pf)) = true →
      env.pathExists (joinPath d (executableName pf)) = true →
      find_tesseract_path pf env = some (joinPath d (executableName pf))) ∧
    (∀ (pf : Platform) (env : Env) (e fol : Path),
      env.whichResult = none →
      (∀ d, env.currentDir = some d → env.isFile (joinPath d (executableName pf)) = false) →
      env.currentExe = some e → parentDir e = some fol →
      env.pathExists (joinPath fol (executableName pf)) = true →
      find_tesseract_path pf env = some (joinPath fol (executableName pf))) ∧
    (∀ (env : Env) (e fol : Path),
      env.whichResult = none →
      (∀ d, env.currentDir = some d →
        env.isFile (joinPath d (executableName .macos)) = false) →
      env.currentExe = some e → parentDir e = some fol →
      env.pathExists (joinPath fol (executableName .macos)) = false →
      env.pathExists (joinPath (joinPath fol "../Resources") (executableName .macos)) = true →
      find_tesseract_path .macos env =
        some (joinPath (joinPath fol "../Resources") (executableName .macos))) ∧
    (∀ (env : Env) (e fol : Path),
      env.whichResult = none →
      (∀ d, env.currentDir = some d →
        env.isFile (joinPath d (executableName .linux)) = false) →
      env.currentExe = some e → parentDir e = some fol →
      env.pathExists (joinPath fol (executableName .linux)) = false →
      env.pathExists (joinPath (joinPath fol "lib") (executableName .linux)) = true →
      find_tesseract_path .linux env =
        some (joinPath (joinPath fol "lib") (executableName .linux))) ∧
    (∀ (pf : Platform) (env : Env) (hm : Path),
      env.whichResult = none →
      (∀ d, env.currentDir = some d → env.isFile (joinPath d (executableName pf)) = false) →
      (∀ e fol, env.currentExe = some e → parentDir e = some fol →
        env.pathExists (joinPath fol (executableName pf)) = false ∧
        env.pathExists (joinPath (joinPath fol "../Resources") (executableName pf)) = false ∧
        env.pathExists (joinPath (joinPath fol "lib") (executableName pf)) = false) →
      env.homeDir = some hm →
      env.pathExists (joinPath (joinPath hm ".local/bin") (executableName pf)) = true →
      find_tesseract_path pf env =
        some (joinPath (joinPath hm ".local/bin") (executableName pf))) := by
  refine ⟨?_, ?_, ?_, ?_, ?_, ?_⟩
  · intro pf env p hwhich
    have hp : step_path env = some p := hwhich
    simp [find_tesseract_path, hp]
  · intro pf env d hwhich hdir hfile hex
    have hp : step_path env = none := hwhich
    have hc : step_cwd pf env = some (joinPath d (executableName pf)) := by
      simp [step_cwd, hdir, hfile, hex]
    simp [find_tesseract_path, hp, hc]
  · intro pf env e fol hwhich hcwd hexe hfol hex
    have hp : step_path env = none := hwhich
    have hc : step_cwd pf env = none := step_cwd_none pf env hcwd
    have he : step_exe pf env = some (joinPath fol (executableName pf)) := by
      simp [step_exe, hexe, hfol, hex]
    simp [find_tesseract_path, hp, hc, he]
  · intro env e fol hwhich hcwd hexe hfol hsib hres
    have hp : step_path env = none := hwhich
    have hc : step_cwd .macos env = none := step_cwd_none _ env hcwd
    have he : step_exe .macos env = none := by
      simp [step_exe, hexe, hfol, hsib]
    have hpl : step_platform .macos env =
        some (joinPath (joinPath fol "../Resources") (executableName .macos)) := by
      simp [step_platform, hexe, hfol, hres]
    simp [find_tesseract_path, hp, hc, he, hpl]
  · intro env e fol hwhich hcwd hexe hfol hsib hlib
    have hp : step_path env = none := hwhich
    have hc : step_cwd .linux env = none := step_cwd_none _ env hcwd
    have he : step_exe .linux env = none := by
      simp [step_exe, hexe, hfol, hsib]
    have hpl : step_platform .linux env =
        some (joinPath (joinPath fol "lib") (executableName .linux)) := by
      simp [step_platform, hexe, hfol, hlib]
    simp [find_tesseract_path, hp, hc, he, hpl]
  · intro pf env hm hwhich hcwd haux hhome hex
    have hp : step_path env = none := hwhich
    have hc : step_cwd pf env = none := step_cwd_none pf env hcwd
    have he : step_exe pf env = none :=
      step_exe_none pf env (fun e fol h1 h2 => (haux e fol h1 h2).1)
    have hpl : step_platform pf env = none :=
      step_platform_none pf env
        (fun e fol h1 h2 => ⟨(haux e fol h1 h2).2.1, (haux e fol h1 h2).2.2⟩)
    have hh : step_home pf env =
        some (joinPath (joinPath hm ".local/bin") (executableName pf)) := by
      simp [step_home, hhome, hex]
    simp [find_tesseract_path, hp, hc, he, hpl, hh]

/-- Claim C4, witness: in `envCwdFile` the executable exists only at
the step-2 location, and the search returns exactly that path. -/
theorem claim_C4_priority_witness :
    find_tesseract_path .linux envCwdFile = some ["home", "tesseract"] :=
  claim_C4_priority.2.1 .linux envCwdFile ["home"] rfl rfl (by decide) (by decide)

/-- Claim C8: when the executable exists at none of the five
locations the search returns `none` (a definitive not-found value,
not a thrown error — `find_tesseract_path` is a total function into
`Option`), and an environment-introspection failure (unknown working
directory, unknown binary path) only skips its steps: with all three
introspections failed, a hit at the step-5 location is still
returned. -/
theorem claim_C8_not_found :
    (∀ (pf : Platform) (env : Env),
      env.whichResult = none →
      (∀ d, env.currentDir = some d → env.isFile (joinPath d (executableName pf)) = false) →
      (∀ e fol, env.currentExe = some e → parentDir e = some fol →
        env.pathExists (joinPath fol (executableName pf)) = false ∧
        env.pathExists (joinPath (joinPath fol "../Resources") (executableName pf)) = false ∧
        env.pathExists (joinPath (joinPath fol "lib") (executableName pf)) = false) →
      (∀ hm, env.homeDir = some hm →
        env.pathExists (joinPath (joinPath hm ".local/bin") (executableName pf)) = false) →
      find_tesseract_path pf env = none) ∧
    (∀ (pf : Platform) (env : Env) (hm : Path),
      env.whichResult = none → env.currentDir = none → env.currentExe = none →
      env.homeDir = some hm →
      env.pathExists (joinPath (joinPath hm ".local/bin") (executableName pf)) = true →
      find_tesseract_path pf env =
        some (joinPath (joinPath hm ".local/bin") (executableName pf))) := by
  constructor
  · intro pf env hwhich hcwd haux hhome
    have hp : step_path env = none := hwhich
    have hc : step_cwd pf env = none := step_cwd_none pf env hcwd
    have he : step_exe pf env = none :=
      step_exe_none pf env (fun e fol h1 h2 => (haux e fol h1 h2).1)
    have hpl : step_platform pf env = none :=
      step_platform_none pf env
        (fun e fol h1 h2 => ⟨(haux e fol h1 h2).2.1, (haux e fol h1 h2).2.2⟩)
    have hh : step_home pf env = none := step_home_none pf env hhome
    simp [find_tesseract_path, hp, hc, he, hpl, hh]
  · intro pf env hm hwhich hdir hexe hhome hex
    have hp : step_path env = none := hwhich
    have hc : step_cwd pf env = none := by
      simp [step_cwd, hdir]
    have he : step_exe pf env = none := by
      simp [step_exe, hexe]
    have hpl : step_platform pf env = none := by
      simp [step_platform, hexe]
    have hh : step_home pf env =
        some (joinPath (joinPath hm ".local/bin") (executableName pf)) := by
      simp [step_home, hhome, hex]
    simp [find_tesseract_path, hp, hc, he, hpl, hh]

/-- Claim C8, witness: in the state where nothing exists and no
introspection succeeds, the search returns `none`. -/
theorem claim_C8_not_found_witness :
    find_tesseract_path .linux envNone = none :=
  claim_C8_not_found.1 .linux envNone rfl
    (fun _ hd => Option.noConfusion hd)
    (fun _ _ he _ => Option.noConfusion he)
    (fun _ hh => Option.noConfusion hh)

/-- Claim C5: `run_tesseract_command` classifies a completed child by
its exit code. Code 0 yields `ok` with the decoded stdout unmodified,
whatever stderr holds; any other outcome — a nonzero code or a
signal-terminated child with no code — yields
`CommandExitStatusError` carrying the stringified status and the
decoded stderr. -/
theorem claim_C5_classification :
    ∀ (w : World) (command : Command) (o : ProcessOutcome) (outChars errChars : List Char),
      w.os command = .completed o →
      utf8Decode o.stdoutBytes = some outChars →
      utf8Decode o.stderrBytes = some errChars →
      (o.statusCode = some 0 →
        run_tesseract_command w command = .ok (String.mk outChars)) ∧
      (o.statusCode ≠ some 0 →
        run_tesseract_command w command =
          .err (.CommandExitStatusError o.statusRepr (String.mk errChars))) := by
  intro w command o outChars errChars hos hout herr
  constructor
  · intro hc
    simp [run_tesseract_command, hos, hout, herr, hc]
  · intro hc
    simp only [run_tesseract_command, hos, hout, herr]

/-- Claim C5, witness: a child that exits 1 writing `bad input` to
stderr yields the typed failure carrying that text and status. -/
theorem claim_C5_classification_witness :
    run_tesseract_command wExitOne cmd0 =
      .err (.CommandExitStatusError "exit status: 1" "bad input") :=
  (claim_C5_classification wExitOne cmd0 _ [] ("bad input".data)
    rfl (by decide) (by decide)).2 (by decide)

/-- Claim C3, counterexample: on a child whose stdout is the invalid
UTF-8 byte 0xFF, `run_tesseract_command` panics (the `unwrap` on
`String::from_utf8`); it does not return any typed error to the
caller, so the claim that the decoding failure is surfaced as a typed
result is false on the code. -/
theorem claim_C3_counterexample :
    run_tesseract_command wBadUtf8 cmd0 = .panic "invalid utf-8 in stdout" ∧
    isErrResult (run_tesseract_command wBadUtf8 cmd0) = false := by
  decide

/-- Claim C3, amended: a decoding failure of either captured stream
is fatal to the call by an unchecked `unwrap` panic — never silently
substituted — but it is a panic, not a typed error returned to the
immediate caller. -/
theorem claim_C3_amended :
    ∀ (w : World) (command : Command) (o : ProcessOutcome),
      w.os command = .completed o →
      (utf8Decode o.stdoutBytes = none ∨ utf8Decode o.stderrBytes = none) →
      isPanicResult (run_tesseract_command w command) = true ∧
      isErrResult (run_tesseract_command w command) = false := by
  intro w command o hos hbad
  simp only [run_tesseract_command, hos]
  rcases hbad with hb | hb
  · simp [hb, isPanicResult, isErrResult]
  · cases hstdout : utf8Decode o.stdoutBytes with
    | none => simp [isPanicResult, isErrResult]
    | some cs => simp [hb, isPanicResult, isErrResult]

/-- Claim C3, witness for the amended statement, at the concrete
invalid-stdout child. -/
theorem claim_C3_amended_witness :
    isPanicResult (run_tesseract_command wBadUtf8 cmd0) = true ∧
    isErrResult (run_tesseract_command wBadUtf8 cmd0) = false :=
  claim_C3_amended wBadUtf8 cmd0 _ rfl (Or.inl (by decide))

/-- Helper: the argument vector of a successfully constructed
recognition command depends only on the image path and the options
bundle. -/
theorem create_ok_args (pf : Platform) (env : Env) (image : Image) (args : Args)
    (ip : String) (c : Command)
    (himg : image.get_image_path = .ok ip)
    (hc : create_tesseract_command pf env image args = .ok c) :
    c.args = [ip, "stdout", "-l", args.lang]
      ++ (match args.dpi with | some dpi => ["--dpi", intDecimal dpi] | none => [])
      ++ (match args.psm with | some psm => ["--psm", intDecimal psm] | none => [])
      ++ (match args.oem with | some oem => ["--oem", intDecimal oem] | none => [])
      ++ (args.get_config_variable_args.map (fun prm => ["-c", prm])).flatten := by
  simp only [Image.get_image_path] at himg
  cases hf : find_tesseract_path pf env with
  | none =>
    exfalso
    simp [create_tesseract_command, get_tesseract_command, hf] at hc
  | some p =>
    simp [create_tesseract_command, get_tesseract_command, hf, Image.get_image_path,
      himg] at hc
    subst hc
    simp

/-- Claim C6: with a located executable and a materialized image
path, the recognition argument vector is exactly the image path,
`stdout`, `-l` with the language, then the optional `--dpi`, `--psm`,
`--oem` pairs in that order, then one `-c key=value` pair per
configuration parameter in the order supplied. -/
theorem claim_C6_arguments :
    ∀ (pf : Platform) (env : Env) (image : Image) (args : Args) (p : Path) (ip : String),
      find_tesseract_path pf env = some p →
      image.get_image_path = .ok ip →
      create_tesseract_command pf env image args =
        .ok { program := p
              args := [ip, "stdout", "-l", args.lang]
                ++ (match args.dpi with | some dpi => ["--dpi", intDecimal dpi] | none => [])
                ++ (match args.psm with | some psm => ["--psm", intDecimal psm] | none => [])
                ++ (match args.oem with | some oem => ["--oem", intDecimal oem] | none => [])
                ++ (args.get_config_variable_args.map (fun prm => ["-c", prm])).flatten } := by
  intro pf env image args p ip hfind himg
  simp only [Image.get_image_path] at himg
  have hcmd : get_tesseract_command pf env = .ok { program := p, args := [] } := by
    simp [get_tesseract_command, hfind]
  simp [create_tesseract_command, hcmd, Image.get_image_path, himg]

/-- Claim C6, witness: the default options of the spec example yield
exactly `[photo.png, stdout, -l, eng]`. -/
theorem claim_C6_arguments_witness :
    create_tesseract_command .linux envCwdFile imgOk argsEng =
      .ok { program := ["home", "tesseract"],
            args := ["photo.png", "stdout", "-l", "eng"] } :=
  claim_C6_arguments .linux envCwdFile imgOk argsEng ["home", "tesseract"] "photo.png"
    (by decide) rfl

/-- Claim C9, counterexample: two calls with the identical image and
identical options do not behave identically when the environment
differs, because construction itself invokes the executable locator:
in `envWhich` the command is built, in `envNone` the call panics and
no argument vector is constructed at all, so construction is not a
function of the image path and options alone. -/
theorem claim_C9_counterexample :
    create_tesseract_command .linux envWhich imgOk argsEng =
      .ok { program := ["opt", "tesseract"], args := ["photo.png", "stdout", "-l", "eng"] } ∧
    create_tesseract_command .linux envNone imgOk argsEng = .panic unwrapNoneMsg ∧
    create_tesseract_command .linux envWhich imgOk argsEng ≠
      create_tesseract_command .linux envNone imgOk argsEng := by
  decide

/-- Claim C9, amended: whenever two calls with the same image path
and the same options both succeed in constructing a command — even
under different environments and platforms — the two argument vectors
are identical; the options value, an immutable input of the pure
embedding, is not mutated. Construction additionally performs the
locator's environment reads, which decide whether it succeeds. -/
theorem claim_C9_amended :
    ∀ (pf1 pf2 : Platform) (env1 env2 : Env) (img1 img2 : Image) (args : Args)
      (ip : String) (c1 c2 : Command),
      img1.get_image_path = .ok ip → img2.get_image_path = .ok ip →
      create_tesseract_command pf1 env1 img1 args = .ok c1 →
      create_tesseract_command pf2 env2 img2 args = .ok c2 →
      c1.args = c2.args := by
  intro pf1 pf2 env1 env2 img1 img2 args ip c1 c2 h1 h2 hc1 hc2
  rw [create_ok_args pf1 env1 img1 args ip c1 h1 hc1,
    create_ok_args pf2 env2 img2 args ip c2 h2 hc2]

/-- Claim C9, witness for the amended statement: two successful calls
under different environments yield the same argument vector. -/
theorem claim_C9_amended_witness :
    (Command.mk ["home", "tesseract"] ["photo.png", "stdout", "-l", "eng"]).args =
      (Command.mk ["opt", "tesseract"] ["photo.png", "stdout", "-l", "eng"]).args :=
  claim_C9_amended .linux .linux envCwdFile envWhich imgOk imgOk argsEng "photo.png"
    (Command.mk ["home", "tesseract"] ["photo.png", "stdout", "-l", "eng"])
    (Command.mk ["opt", "tesseract"] ["photo.png", "stdout", "-l", "eng"])
    rfl rfl (by decide) (by decide)

/-- Claim C7: on a successful language-list run the function drops
exactly the first line of the output and returns each remaining line
in order, duplicates and interior blanks included. -/
theorem claim_C7_langs :
    ∀ (pf : Platform) (env : Env) (w : World) (p : Path) (o : ProcessOutcome)
      (outChars errChars : List Char),
      find_tesseract_path pf env = some p →
      w.os { program := p, args := ["--list-langs"] } = .completed o →
      utf8Decode o.stdoutBytes = some outChars →
      utf8Decode o.stderrBytes = some errChars →
      o.statusCode = some 0 →
      get_tesseract_langs pf env w = .ok ((rustLines (String.mk outChars)).drop 1) := by
  intro pf env w p o outChars errChars hfind hos hout herr hzero
  have hcmd : get_tesseract_command pf env = .ok { program := p, args := [] } := by
    simp [get_tesseract_command, hfind]
  have hrun : run_tesseract_command w { program := p, args := ["--list-langs"] } =
      .ok (String.mk outChars) := by
    simp [run_tesseract_command, hos, hout, herr, hzero]
  simp [get_tesseract_langs, hcmd, hrun]

/-- Claim C7, witness: raw output
`List of available languages:\neng\nfra\n` yields `[eng, fra]`. -/
theorem claim_C7_langs_witness :
    get_tesseract_langs .linux envCwdFile wLangs = .ok ["eng", "fra"] :=
  claim_C7_langs .linux envCwdFile wLangs ["home", "tesseract"] _
    ("List of available languages:\neng\nfra\n".data) []
    (by decide) rfl (by decide) (by decide) (by decide)

/-- Claim C10: when the successful language-list output holds at most
one line (the empty string included), dropping the header leaves the
empty list and the call returns `ok []`, not an error. -/
theorem claim_C10_short_output :
    ∀ (pf : Platform) (env : Env) (w : World) (p : Path) (o : ProcessOutcome)
      (outChars errChars : List Char),
      find_tesseract_path pf env = some p →
      w.os { program := p, args := ["--list-langs"] } = .completed o →
      utf8Decode o.stdoutBytes = some outChars →
      utf8Decode o.stderrBytes = some errChars →
      o.statusCode = some 0 →
      (rustLines (String.mk outChars)).length ≤ 1 →
      get_tesseract_langs pf env w = .ok [] := by
  intro pf env w p o outChars errChars hfind hos hout herr hzero hlen
  have hcmd : get_tesseract_command pf env = .ok { program := p, args := [] } := by
    simp [get_tesseract_command, hfind]
  have hrun : run_tesseract_command w { program := p, args := ["--list-langs"] } =
      .ok (String.mk outChars) := by
    simp [run_tesseract_command, hos, hout, herr, hzero]
  have hdrop : (rustLines (String.mk outChars)).drop 1 = [] :=
    List.drop_eq_nil_of_le hlen
  simp [get_tesseract_langs, hcmd, hrun, hdrop]

/-- Claim C10, witness: output holding only the header line, with no
trailing newline, yields `ok []`. -/
theorem claim_C10_short_output_witness :
    get_tesseract_langs .linux envCwdFile wHeaderOnly = .ok [] :=
  claim_C10_short_output .linux envCwdFile wHeaderOnly ["home", "tesseract"] _
    ("List of available languages:".data) []
    (by decide) rfl (by decide) (by decide) (by decide) (by decide)

end RustyTesseract
